import Mathlib

/-!
Shallow embedding of the Job Execution & Lifecycle subsystem of the engine
repository (`src/environment/action/deploy_job.rs`), together with theorems
settling the frozen claims about it.

Conventions of the embedding:
* Rust `Option<T>` becomes `Option T`; Kubernetes `i32` counters become `Int`.
* `serde_json::Value` becomes the inductive `Json` below.  A parsed JSON
  document's objects are modelled as association lists of `(key, value)`
  pairs; map lookup (`Map::get`) is modelled by `jlookup`, which returns the
  last binding of a key, matching the overwrite-on-insert semantics of the
  maps serde builds while parsing.  JSON numbers are modelled by `JsonNum`
  (decimal mantissa/exponent), whose `render` gives the canonical compact
  text serde produces for them.
* Stateful control loops (`retry::retry`, the restart loop of `run_job`, the
  forced-cancellation cleanup, the force-triggered-cron tail) are embedded as
  structurally recursive functions over the sequence of observations the loop
  would make (one observation per remote call), returning both the outcome
  and the number of iterations performed.
-/

/-! ## Job status classification (`job_status`, `is_job_terminated`) -/

/-- The closed status enum of `deploy_job.rs` (`pub enum JobStatus`). -/
inductive JobStatus where
  | NotRunning : JobStatus
  | Running : JobStatus
  | Success : JobStatus
  | Failure (reason : String) (message : String) : JobStatus
deriving DecidableEq, Repr

/-- The fields of `k8s_openapi::api::batch::v1::JobCondition` read by
`job_status` (`type_`, `reason`, `message`); `JobCondition::default()` has an
empty `type_` and `None` for the two options. -/
structure JobCondition where
  type_ : String := ""
  reason : Option String := none
  message : Option String := none
deriving DecidableEq, Repr

/-- The fields of `k8s_openapi::api::batch::v1::JobStatus` read by
`job_status`: the `succeeded` and `failed` counters and the condition list. -/
structure K8sJobStatus where
  succeeded : Option Int
  failed : Option Int
  conditions : Option (List JobCondition)
deriving DecidableEq, Repr

/-- The part of a `k8s_openapi::api::batch::v1::Job` resource snapshot read
by `job_status`: its optional `status` sub-object. -/
structure K8sJob where
  status : Option K8sJobStatus
deriving DecidableEq, Repr

/-- The first condition of type `"Failed"`, or the default condition when the
list is absent or has no such condition — embedding of the
`status.conditions.as_ref().and_then(...find...).unwrap_or_default()`
expression inside `job_status`. -/
def failedCondition (status : K8sJobStatus) : JobCondition :=
  (status.conditions.bind fun conds => conds.find? fun c => c.type_ == "Failed").getD {}

/-- Embedding of `pub fn job_status(job: &Option<&K8sJob>) -> JobStatus`. -/
def job_status (job : Option K8sJob) : JobStatus :=
  match job with
  | some pod =>
    match pod.status with
    | some status =>
      if status.succeeded.isSome then JobStatus.Success
      else if status.failed.isSome then
        let condition := failedCondition status
        JobStatus.Failure (condition.reason.getD "") (condition.message.getD "")
      else JobStatus.Running
    | none => JobStatus.Running
  | none => JobStatus.NotRunning

/-- Embedding of `pub fn is_job_terminated() -> impl Condition<K8sJob>`: the
closure it returns, as a predicate on the optional job snapshot. -/
def is_job_terminated (job : Option K8sJob) : Bool :=
  match job_status job with
  | JobStatus.NotRunning => false
  | JobStatus.Running => false
  | JobStatus.Success => true
  | JobStatus.Failure _ _ => true

/-! ## JSON model and the structured-output parser (`serialize_job_output`) -/

/-- A JSON number in decimal form: the integer `mantissa` scaled by
`10 ^ (- exponent)`.  `⟨123, 0⟩` is `123`; `⟨123456, 3⟩` is `123.456`. -/
structure JsonNum where
  mantissa : Int
  exponent : Nat
deriving DecidableEq, Repr

/-- Canonical text of a JSON number, as serde renders it: the plain integer
when the exponent is zero, otherwise a decimal point inserted `exponent`
digits from the right (zero-padding the digit string when needed). -/
def JsonNum.render (n : JsonNum) : String :=
  match n.exponent with
  | 0 => toString n.mantissa
  | e + 1 =>
    let sign := if n.mantissa < 0 then "-" else ""
    let digits := toString n.mantissa.natAbs
    let digits :=
      if digits.length ≤ e + 1 then
        String.mk (List.replicate (e + 2 - digits.length) '0') ++ digits
      else digits
    let intLen := digits.length - (e + 1)
    sign ++ (digits.toList.take intLen).asString ++ "." ++ (digits.toList.drop intLen).asString

/-- Shallow embedding of `serde_json::Value`.  Objects carry their entries as
an association list; the lists produced by parsing have distinct keys (serde
builds maps, overwriting on duplicate keys) and `jlookup` below reads them
with the same last-binding-wins semantics. -/
inductive Json where
  | null : Json
  | bool (b : Bool) : Json
  | num (n : JsonNum) : Json
  | str (s : String) : Json
  | arr (elems : List Json) : Json
  | obj (entries : List (String × Json)) : Json

/-- Lookup in an object's association list: the last binding of the key wins,
matching the overwrite-on-insert behaviour of the map serde builds. -/
def jlookup (entries : List (String × Json)) (key : String) : Option Json :=
  entries.foldl (fun acc p => if p.1 == key then some p.2 else acc) none

/-- One character of serde's JSON string escaping: quote and backslash get a
backslash, control characters get their short escape or a `\u00XX` form. -/
def escapeJsonChar (c : Char) : String :=
  if c == '"' then "\\\""
  else if c == '\\' then "\\\\"
  else if c == Char.ofNat 8 then "\\b"
  else if c == Char.ofNat 9 then "\\t"
  else if c == Char.ofNat 10 then "\\n"
  else if c == Char.ofNat 12 then "\\f"
  else if c == Char.ofNat 13 then "\\r"
  else if c.toNat < 32 then
    "\\u00" ++ (List.map (fun d => (Nat.digitChar d)) [c.toNat / 16, c.toNat % 16]).asString
  else String.singleton c

/-- Serde's rendering of a JSON string literal, quotes included. -/
def renderJsonString (s : String) : String :=
  "\"" ++ String.join (s.toList.map escapeJsonChar) ++ "\""

mutual

/-- Canonical compact text of a JSON value — the embedding of
`serde_json::Value::to_string()` (`Display` with no whitespace). -/
def jsonRender : Json → String
  | Json.null => "null"
  | Json.bool true => "true"
  | Json.bool false => "false"
  | Json.num n => n.render
  | Json.str s => renderJsonString s
  | Json.arr elems => "[" ++ jsonRenderList elems ++ "]"
  | Json.obj entries => "\x7b" ++ jsonRenderEntries entries ++ "\x7d"

/-- Comma-separated rendering of an array's elements. -/
def jsonRenderList : List Json → String
  | [] => ""
  | [v] => jsonRender v
  | v :: rest => jsonRender v ++ "," ++ jsonRenderList rest

/-- Comma-separated rendering of an object's entries. -/
def jsonRenderEntries : List (String × Json) → String
  | [] => ""
  | [(k, v)] => renderJsonString k ++ ":" ++ jsonRender v
  | (k, v) :: rest => renderJsonString k ++ ":" ++ jsonRender v ++ "," ++ jsonRenderEntries rest

end

/-- Embedding of `Value::as_str().map(ToString::to_string)` as used through
`.as_str().unwrap_or_default()`: the string when the value is a JSON string. -/
def Json.asStr : Json → Option String
  | Json.str s => some s
  | _ => none

/-- Embedding of `Value::as_bool()`: the boolean when the value is one. -/
def Json.asBool : Json → Option Bool
  | Json.bool b => some b
  | _ => none

/-- Embedding of `Value::as_object()`: the entry list when the value is an
object. -/
def Json.asObj : Json → Option (List (String × Json))
  | Json.obj entries => some entries
  | _ => none

/-- The struct `JobOutputVariable` of `deploy_job.rs`. -/
structure JobOutputVariable where
  value : String
  sensitive : Bool
  description : String
deriving DecidableEq, Repr

/-- The `impl Default for JobOutputVariable`: empty strings, `sensitive: true`. -/
def JobOutputVariable.default : JobOutputVariable :=
  { value := "", sensitive := true, description := "" }

/-- The per-entry body of `serialize_job_output`'s loop: given the entry
list of one top-level value that is an object, build its `JobOutputVariable`.
`value` falls back to `Value::default()` (JSON `null`); a string value is used
as-is, anything else is rendered to its canonical JSON text; `sensitive`
defaults to `false` and `description` to the empty string. -/
def jobOutputVariableOfObject (entry : List (String × Json)) : JobOutputVariable :=
  let value := (jlookup entry "value").getD Json.null
  let jobOutputValue :=
    if (Json.asStr value).isSome then ((Json.asStr value).getD "")
    else jsonRender value
  { value := jobOutputValue
    sensitive := ((jlookup entry "sensitive").getD Json.null).asBool.getD false
    description := (((jlookup entry "description").getD Json.null).asStr.getD "") }

/-- The entry loop of `pub fn serialize_job_output(json: &str) ->
Result<HashMap<String, JobOutputVariable>, serde_json::Error>`, taken at the
level of the denoted JSON value it runs on after a successful
`from_str::<HashMap<&str, Value>>` parse: `none` for a non-object value, and
otherwise the loop keeps the entries whose value is itself an object,
skipping the rest (`continue`).  The parse boundary of the full function —
including the borrowed-key constraint of `HashMap<&str, Value>` — is
`serialize_job_output_from_str` below. -/
def serialize_job_output (json : Json) : Option (List (String × JobOutputVariable)) :=
  match json with
  | Json.obj entries =>
    some (entries.filterMap fun p =>
      match Json.asObj p.2 with
      | none => none
      | some inner => some (p.1, jobOutputVariableOfObject inner))
  | _ => none

/-- A top-level object key as it stands in the payload text: the string it
denotes, and whether its source token is written with any escape sequence
(such as a backslash-escaped quote or a `\u` form). -/
structure RawKey where
  content : String
  escaped : Bool
deriving DecidableEq, Repr

/-- What `serde_json::from_str::<HashMap<&str, Value>>` observes of the raw
payload text: either it is not a valid JSON object at all (malformed text or
a non-object value), or it is a valid object whose keys carry their
source-token escape information alongside the value each denotes. -/
inductive JsonDocument where
  | notObject : JsonDocument
  | object (entries : List (RawKey × Json)) : JsonDocument

/-- Embedding of `pub fn serialize_job_output` from the payload text
(`deploy_job.rs` line 796 on).  The target map of
`serde_json::from_str::<HashMap<&str, Value>>` has borrowed `&str` keys,
which deserialize only from key tokens that need no unescaping: a top-level
key written with an escape sequence forces an owned copy that the `&str`
visitor rejects, so the parse errors not only on a malformed or non-object
payload but also on a valid object having an escaped key.  Otherwise the
entry loop (`serialize_job_output`) runs on the denoted entries. -/
def serialize_job_output_from_str (doc : JsonDocument) :
    Option (List (String × JobOutputVariable)) :=
  match doc with
  | JsonDocument.notObject => none
  | JsonDocument.object entries =>
    if entries.any fun p => p.1.escaped then none
    else serialize_job_output (Json.obj (entries.map fun p => (p.1.content, p.2)))

/-- Model of Rust `str::to_uppercase` (adequate on ASCII strings): the
character-wise upper-casing of the string. -/
def rustToUppercase (s : String) : String := String.mk (s.data.map Char.toUpper)

/-- Model of Rust `str::to_lowercase` (adequate on ASCII strings): the
character-wise lower-casing of the string. -/
def rustToLowercase (s : String) : String := String.mk (s.data.map Char.toLower)

/-- Insert into an association list with overwrite: the embedding of one
`HashMap::insert` (the key's previous binding, if any, is replaced). -/
def insertOverwrite (m : List (String × JobOutputVariable)) (k : String) (v : JobOutputVariable) :
    List (String × JobOutputVariable) :=
  if m.any fun p => p.1 == k then
    m.map fun p => if p.1 == k then (k, v) else p
  else m ++ [(k, v)]

/-- Embedding of the key upper-casing collection step of `run_job` (lines
297-302): `.iter().map(|(key, value)| (key.to_uppercase(), value.clone()))
.collect::<HashMap<_, _>>()` — entries whose upper-cased keys collide merge,
the later insertion overwriting the earlier one. -/
def uppercaseKeys (m : List (String × JobOutputVariable)) : List (String × JobOutputVariable) :=
  m.foldl (fun acc p => insertOverwrite acc (rustToUppercase p.1) p.2) []

/-! ## Active-pod selection (`get_active_job_pod_by_selector`) -/

/-- The part of a container status state read by the pod selector:
whether `state.running` is present. -/
structure ContainerState where
  running : Bool
deriving DecidableEq, Repr

/-- A container status: its optional `state`. -/
structure ContainerStatus where
  state : Option ContainerState
deriving DecidableEq, Repr

/-- The fields of a pod's `status` sub-object read by the selector. -/
structure PodStatus where
  phase : Option String
  container_statuses : Option (List ContainerStatus)
deriving DecidableEq, Repr

/-- A pod snapshot: its metadata name and optional status.  (The source
unwraps `metadata.name`; the embedding models it as present.) -/
structure Pod where
  name : String
  status : Option PodStatus
deriving DecidableEq, Repr

/-- The fixed polling delay of the selector (`Fixed::from_millis(10_000)`). -/
def podPollDelayMillis : Nat := 10000

/-- Message of the empty-list retry of the selector. -/
def msgNoPodFound (job_pod_selector : String) : String :=
  "No pod found when listing pods having label " ++ job_pod_selector

/-- Message of the list-API-error retry of the selector. -/
def msgListError (job_pod_selector : String) : String :=
  "Error when listing pods having label " ++ job_pod_selector ++ " through Kube API"

/-- Message of the pods-still-pending retry of the selector. -/
def msgPodsPending (job_pod_selector : String) : String :=
  "Error pods having label " ++ job_pod_selector ++ " are still pending to be scheduled"

/-- Message of the no-single-active-pod retry of the selector. -/
def msgNoActivePod (job_pod_selector : String) : String :=
  "Cannot find active pod having label " ++ job_pod_selector

/-- Message of the pod-already-processed retry of the selector. -/
def msgAlreadyProcessed (job_pod_selector : String) : String :=
  "Selected pod has already been processed. Waiting for the next pod to be created having label "
    ++ job_pod_selector

/-- The pending check of one listed pod: its status phase, lower-cased,
equals the lower-cased rendering of the `Pending` phase (`"pending"`). -/
def podIsPending (pod : Pod) : Bool :=
  match pod.status with
  | some podStatus =>
    match podStatus.phase with
    | some phase => rustToLowercase phase == "pending"
    | none => false
  | none => false

/-- The active check of one listed pod: some container status has a `state`
whose `running` field is present. -/
def podIsActive (pod : Pod) : Bool :=
  match pod.status with
  | some podStatus =>
    match podStatus.container_statuses with
    | some statuses => (statuses.filterMap fun c => c.state).any fun s => s.running
    | none => false
  | none => false

/-- One step of a `retry::retry` operation: either a final value or a
retryable error. -/
inductive OpResult (α : Type) (ε : Type) where
  | ok (a : α) : OpResult α ε
  | retry (e : ε) : OpResult α ε
deriving DecidableEq, Repr

/-- One attempt of the selector's retry closure (`deploy_job.rs` lines
663-746), over the pod list that attempt observes (`none` models a Kube API
listing error): empty list, a pending pod, not exactly one active pod, and an
already-processed pod each retry; otherwise the active pod's name is
returned. -/
def podSelectAttempt (pods? : Option (List Pod)) (job_pod_selector : String)
    (set_of_pods_already_processed : List String) : OpResult String String :=
  match pods? with
  | none => OpResult.retry (msgListError job_pod_selector)
  | some pods =>
    if pods.isEmpty then OpResult.retry (msgNoPodFound job_pod_selector)
    else if pods.any podIsPending then OpResult.retry (msgPodsPending job_pod_selector)
    else
      let active_job_pods := (pods.filter podIsActive).map fun p => p.name
      match active_job_pods with
      | [active_selected_pod_name] =>
        if set_of_pods_already_processed.contains active_selected_pod_name then
          OpResult.retry (msgAlreadyProcessed job_pod_selector)
        else OpResult.ok active_selected_pod_name
      | _ => OpResult.retry (msgNoActivePod job_pod_selector)

/-- The `retry::retry` combinator over a delay iterator of `remaining`
entries: the operation runs once, and each remaining delay allows one more
run after a retryable error; when the delays are exhausted the last error is
returned.  The result is paired with the number of attempts performed;
`attempt` numbers the attempts (1-based) so the operation can be indexed by
the poll it corresponds to. -/
def retryFixed (op : Nat → OpResult α ε) (attempt : Nat) : Nat → Except ε α × Nat
  | 0 =>
    match op attempt with
    | OpResult.ok a => (Except.ok a, 1)
    | OpResult.retry e => (Except.error e, 1)
  | r + 1 =>
    match op attempt with
    | OpResult.ok a => (Except.ok a, 1)
    | OpResult.retry _ =>
      let rest := retryFixed op (attempt + 1) r
      (rest.1, rest.2 + 1)

/-- Embedding of `pub fn get_active_job_pod_by_selector`, over the sequence
of poll observations `polls` (poll `i` is what the `i`-th attempt's listing
returns).  The delay iterator is
`Fixed::from_millis(10_000).take(min(30, job_max_duration.as_secs() / 10))`,
so the operation runs at most `min 30 (job_max_duration_secs / 10) + 1`
times; exhaustion surfaces the last retry error. -/
def get_active_job_pod_by_selector (polls : Nat → Option (List Pod))
    (job_pod_selector : String) (set_of_pods_already_processed : List String)
    (job_max_duration_secs : Nat) : Except String String × Nat :=
  retryFixed
    (fun i => podSelectAttempt (polls i) job_pod_selector set_of_pods_already_processed)
    1 (min 30 (job_max_duration_secs / 10))

/-! ## The one-shot restart loop of `run_job` -/

/-- The restart loop of `run_job` (lines 226-378), abstracted over the
job-level classification each pod-acquisition/wait cycle ends with
(`classified i` is the `job_status` result of cycle `i`, 0-based, i.e. the
value of `job_creation_iterations` at that cycle).  `Success` returns `ok`;
`Failure` propagates once `job_creation_iterations == job_max_nb_restart`,
and otherwise increments the counter and loops; `NotRunning`/`Running` hit
the source's `unreachable!()`, modelled as `none`.  The second component
counts the cycles performed from cycle `i` on. -/
def restartLoopFrom (classified : Nat → JobStatus) (i : Nat) :
    Nat → Option (Except (String × String) Unit) × Nat
  | 0 =>
    match classified i with
    | JobStatus.Success => (some (Except.ok ()), 1)
    | JobStatus.Failure reason message => (some (Except.error (reason, message)), 1)
    | JobStatus.NotRunning => (none, 1)
    | JobStatus.Running => (none, 1)
  | r + 1 =>
    match classified i with
    | JobStatus.Success => (some (Except.ok ()), 1)
    | JobStatus.Failure _ _ =>
      let rest := restartLoopFrom classified (i + 1) r
      (rest.1, rest.2 + 1)
    | JobStatus.NotRunning => (none, 1)
    | JobStatus.Running => (none, 1)

/-- The full restart loop: `job_creation_iterations` starts at `0` and the
budget check is `job_creation_iterations == job_max_nb_restart`, so
`max_nb_restart` more cycles may follow the first one. -/
def run_job_restart_loop (classified : Nat → JobStatus) (max_nb_restart : Nat) :
    Option (Except (String × String) Unit) × Nat :=
  restartLoopFrom classified 0 max_nb_restart

/-! ## Forced-cancellation cleanup of `run_job` -/

/-- The fields of one environment job read by the forced-cancellation
cleanup: its label selector and whether its schedule `is_job()` (a
lifecycle-scheduled job as opposed to a cron). -/
structure EnvJob where
  kube_label_selector : String
  is_lifecycle_job : Bool
deriving DecidableEq, Repr

/-- How the forced-cancellation block of `run_job` exits: either a
cancellation error is returned, or control falls through to output
extraction.  Both record the selectors whose deletion was attempted, in
order. -/
inductive ForceCancelOutcome where
  | cancellationError (attempted : List String) : ForceCancelOutcome
  | proceedToOutput (attempted : List String) : ForceCancelOutcome
deriving DecidableEq, Repr

/-- The loop body of the forced-cancellation block (lines 264-282), over the
lifecycle-filtered job list: each deletion is attempted in turn
(`deleteOk s` tells whether `kubectl_exec_delete_job` succeeds for selector
`s`); a successful deletion returns the cancellation error immediately, a
failed one logs a warning and continues; after the loop, control falls
through to output extraction. -/
def forceCancelLoop (deleteOk : String → Bool) :
    List EnvJob → List String → ForceCancelOutcome
  | [], attempted => ForceCancelOutcome.proceedToOutput attempted.reverse
  | j :: rest, attempted =>
    if j.is_lifecycle_job then
      if deleteOk j.kube_label_selector then
        ForceCancelOutcome.cancellationError (j.kube_label_selector :: attempted).reverse
      else forceCancelLoop deleteOk rest (j.kube_label_selector :: attempted)
    else forceCancelLoop deleteOk rest attempted

/-- The forced-cancellation block of `run_job`, entered when
`should_force_cancel()` is observed after the container-termination wait:
iterates over the environment's jobs whose schedule `is_job()`. -/
def run_job_force_cancel_cleanup (jobs : List EnvJob) (deleteOk : String → Bool) :
    ForceCancelOutcome :=
  forceCancelLoop deleteOk jobs []

/-! ## The force-triggered cron tail of `run_job` -/

/-- What the bounded job-termination wait of the force-triggered cron path
observes: the `await_condition` future erroring, the 3800-second timeout
elapsing, or the condition completing with a job snapshot. -/
inductive CronWaitResult where
  | waitError : CronWaitResult
  | timeout : CronWaitResult
  | completed (job : Option K8sJob) : CronWaitResult
deriving DecidableEq

/-- The hard ceiling of the force-triggered wait
(`Duration::from_secs(3800)`, one hour plus margin). -/
def forceTriggerWaitCeilingSecs : Nat := 3800

/-- The informational message logged when the force-triggered job is still
running at the ceiling. -/
def stillRunningLogMessage : String :=
  "Job is still running after 1h. Stopping waiting for it. Please check live-logs and service status to know its status"

/-- Outcome of the force-triggered cron tail: the propagated result, whether
the schedule resource's uninstall (`helm.on_delete`) was attempted, and
whether the still-running informational message was logged. -/
structure ForceTriggerOutcome where
  result : Except String Unit
  uninstallAttempted : Bool
  loggedStillRunning : Bool

/-- Embedding of the tail of `run_job`'s force-triggered cron branch (lines
427-468), from the bounded termination wait on: the timeout is mapped to
`JobStatus::Running`, a completed wait is classified with `job_status`, and a
wait error propagates at once.  `Success` and `Running` (logged
informationally) yield `Ok`; `NotRunning` and `Failure` yield errors.  The
schedule resource is uninstalled exactly when `cronjob_is_already_installed`
is false (`uninstallResult` is what `helm.on_delete` returns there, and its
error propagates before the classified result is consulted). -/
def run_job_force_trigger_tail (cronjob_is_already_installed : Bool)
    (wait : CronWaitResult) (uninstallResult : Except String Unit) : ForceTriggerOutcome :=
  let classified : Except String JobStatus :=
    match wait with
    | CronWaitResult.waitError => Except.error "Cannot find job for terminated pod"
    | CronWaitResult.timeout => Except.ok JobStatus.Running
    | CronWaitResult.completed job => Except.ok (job_status job)
  match classified with
  | Except.error m =>
    { result := Except.error m, uninstallAttempted := false, loggedStillRunning := false }
  | Except.ok st =>
    let logged := st == JobStatus.Running
    let cronjob_result : Except String Unit :=
      match st with
      | JobStatus.Success => Except.ok ()
      | JobStatus.Running => Except.ok ()
      | JobStatus.NotRunning =>
        Except.error "Job failed to correctly run due to `NotRunning`. This should not happen"
      | JobStatus.Failure reason message =>
        Except.error ("Job failed to correctly run due to " ++ reason ++ " " ++ message)
    if !cronjob_is_already_installed then
      match uninstallResult with
      | Except.error m =>
        { result := Except.error m, uninstallAttempted := true, loggedStillRunning := logged }
      | Except.ok () =>
        { result := cronjob_result, uninstallAttempted := true, loggedStillRunning := logged }
    else
      { result := cronjob_result, uninstallAttempted := false, loggedStillRunning := logged }

/-! ## Claims -/

/-- C1.  The claim says that on forced cancellation the runner deletes every
lifecycle-scheduled job (continuing past individual failures) and then
returns a cancellation error instead of proceeding to output extraction.
The source loop instead returns the cancellation error from inside the loop
on the *first successful* deletion — skipping the remaining jobs — and falls
through to output extraction (returning no cancellation error at all) when
no deletion succeeds: with two lifecycle jobs and deletions succeeding only
the first selector is attempted, and with one lifecycle job whose deletion
fails the block proceeds to output extraction. -/
theorem claim_C1_forced_cancel_cleanup_divergence :
    run_job_force_cancel_cleanup
        [⟨"appId=job1", true⟩, ⟨"appId=job2", true⟩] (fun _ => true)
      = ForceCancelOutcome.cancellationError ["appId=job1"]
    ∧ run_job_force_cancel_cleanup [⟨"appId=job1", true⟩] (fun _ => false)
      = ForceCancelOutcome.proceedToOutput ["appId=job1"] :=
  ⟨rfl, rfl⟩

/-- C2 (counterexample).  The claim classifies by the counters being `> 0`,
but the source tests `is_some()`: a snapshot whose `failed` counter is `1`
(`> 0`) while `succeeded` is `0` (set, but not `> 0`) classifies `Success`,
not the `Failure` the claim's case analysis requires. -/
theorem claim_C2_counterexample :
    job_status (some ⟨some ⟨some 0, some 1, none⟩⟩) = JobStatus.Success
    ∧ job_status (some ⟨some ⟨some 0, some 1, none⟩⟩) ≠ JobStatus.Failure "" ""
    ∧ (1 : Int) > 0 ∧ ¬ ((0 : Int) > 0) := by
  refine ⟨rfl, ?_, by norm_num, by norm_num⟩
  intro h
  exact JobStatus.noConfusion h

/-- C2 (amended).  The job-status classifier returns `NotRunning` when the
resource is absent; `Success` when the resource is present with the
`succeeded` counter set; `Failure`, with reason and message taken from the
first condition of type "Failed" (each defaulting to the empty string when
absent), when the `failed` counter is set and `succeeded` is not; and
`Running` when the resource is present with neither counter set. -/
theorem claim_C2_job_status_classifier :
    job_status none = JobStatus.NotRunning
    ∧ (∀ st : K8sJobStatus, st.succeeded.isSome →
        job_status (some ⟨some st⟩) = JobStatus.Success)
    ∧ (∀ (st : K8sJobStatus) (conds : List JobCondition) (c : JobCondition),
        st.succeeded = none → st.failed.isSome → st.conditions = some conds →
        conds.find? (fun cnd => cnd.type_ == "Failed") = some c →
        job_status (some ⟨some st⟩)
          = JobStatus.Failure (c.reason.getD "") (c.message.getD ""))
    ∧ (∀ st : K8sJobStatus, st.succeeded = none → st.failed.isSome →
        (st.conditions.bind fun conds => conds.find? fun cnd => cnd.type_ == "Failed") = none →
        job_status (some ⟨some st⟩) = JobStatus.Failure "" "")
    ∧ (∀ j : K8sJob, (∀ st, j.status = some st → st.succeeded = none ∧ st.failed = none) →
        job_status (some j) = JobStatus.Running) := by
  refine ⟨rfl, ?_, ?_, ?_, ?_⟩
  · intro st h
    simp [job_status, h]
  · intro st conds c hsucc hfail hconds hfind
    simp [job_status, failedCondition, hsucc, hfail, hconds, hfind]
  · intro st hsucc hfail hbind
    simp [job_status, failedCondition, hsucc, hfail, hbind]
  · intro j h
    match hj : j.status with
    | none => simp [job_status, hj]
    | some st =>
      obtain ⟨h1, h2⟩ := h st hj
      simp [job_status, hj, h1, h2]

/-- C2 (witness): the amended classifier cases at concrete snapshots. -/
theorem claim_C2_witness :
    job_status (some ⟨some ⟨some 1, none, none⟩⟩) = JobStatus.Success
    ∧ job_status (some ⟨some ⟨none, some 1, some [⟨"Failed", some "r", some "m"⟩]⟩⟩)
        = JobStatus.Failure "r" "m"
    ∧ job_status (some ⟨some ⟨none, some 1, none⟩⟩) = JobStatus.Failure "" ""
    ∧ job_status (some ⟨some ⟨none, none, none⟩⟩) = JobStatus.Running :=
  ⟨claim_C2_job_status_classifier.2.1 ⟨some 1, none, none⟩ rfl,
   by
    have h := claim_C2_job_status_classifier.2.2.1 ⟨none, some 1, some [⟨"Failed", some "r", some "m"⟩]⟩
      [⟨"Failed", some "r", some "m"⟩] ⟨"Failed", some "r", some "m"⟩ rfl rfl rfl rfl
    simpa using h,
   claim_C2_job_status_classifier.2.2.2.1 ⟨none, some 1, none⟩ rfl rfl rfl,
   claim_C2_job_status_classifier.2.2.2.2 ⟨some ⟨none, none, none⟩⟩
     (fun st hst => by cases hst; exact ⟨rfl, rfl⟩)⟩

/-- Helper for C3: when every cycle classifies `Failure`, the restart loop
starting at cycle `i` with `remaining` budget performs `remaining + 1` cycles
and propagates the failure of the last cycle, `i + remaining`. -/
theorem restartLoopFrom_all_failure (classified : Nat → JobStatus)
    (hfail : ∀ i, ∃ r m, classified i = JobStatus.Failure r m) :
    ∀ remaining i, (restartLoopFrom classified i remaining).2 = remaining + 1
      ∧ ∀ r m, classified (i + remaining) = JobStatus.Failure r m →
          (restartLoopFrom classified i remaining).1 = some (Except.error (r, m)) := by
  intro remaining
  induction remaining with
  | zero =>
    intro i
    obtain ⟨r, m, h⟩ := hfail i
    refine ⟨by simp [restartLoopFrom, h], ?_⟩
    intro r' m' h'
    simp only [Nat.add_zero] at h'
    simp [restartLoopFrom, h']
  | succ n ih =>
    intro i
    obtain ⟨r, m, h⟩ := hfail i
    obtain ⟨ih1, ih2⟩ := ih (i + 1)
    refine ⟨?_, ?_⟩
    · simp [restartLoopFrom, h, ih1]
    · intro r' m' h'
      have hidx : i + 1 + n = i + (n + 1) := by omega
      rw [hidx] at ih2
      simp [restartLoopFrom, h, ih2 r' m' h']

/-- C3.  In a one-shot run with restart budget `max_nb_restart = n` where
every cycle's job-level classification is `Failure`, the restart loop
performs exactly `n + 1` pod-acquisition/wait cycles and propagates the last
cycle's failure. -/
theorem claim_C3_restart_budget (max_nb_restart : Nat) (classified : Nat → JobStatus)
    (hfail : ∀ i, ∃ r m, classified i = JobStatus.Failure r m) :
    (run_job_restart_loop classified max_nb_restart).2 = max_nb_restart + 1
    ∧ ∀ r m, classified max_nb_restart = JobStatus.Failure r m →
        (run_job_restart_loop classified max_nb_restart).1 = some (Except.error (r, m)) := by
  obtain ⟨h1, h2⟩ := restartLoopFrom_all_failure classified hfail max_nb_restart 0
  exact ⟨h1, fun r m h => h2 r m (by simpa using h)⟩

/-- C3 (witness): with `max_nb_restart = 1` and both cycles failing, exactly
2 cycles happen before the failure is propagated. -/
theorem claim_C3_witness :
    (run_job_restart_loop (fun _ => JobStatus.Failure "r" "m") 1).2 = 2
    ∧ (run_job_restart_loop (fun _ => JobStatus.Failure "r" "m") 1).1
        = some (Except.error ("r", "m")) :=
  ⟨(claim_C3_restart_budget 1 _ (fun _ => ⟨"r", "m", rfl⟩)).1,
   (claim_C3_restart_budget 1 _ (fun _ => ⟨"r", "m", rfl⟩)).2 "r" "m" rfl⟩

/-- Helper: appending the empty string is the identity. -/
theorem string_append_empty (s : String) : s ++ "" = s := by
  cases s
  simp [String.ext_iff]

/-- Helper for C4: every retryable error of one selector attempt carries the
label selector inside its message. -/
theorem podSelectAttempt_retry_carries_selector (pods? : Option (List Pod))
    (sel : String) (processed : List String) (e : String)
    (h : podSelectAttempt pods? sel processed = OpResult.retry e) :
    ∃ a b, e = a ++ sel ++ b := by
  rcases pods? with _ | pods <;> simp only [podSelectAttempt] at h
  · cases h
    exact ⟨"Error when listing pods having label ", " through Kube API",
      by simp [msgListError]⟩
  · by_cases h1 : pods.isEmpty
    · rw [if_pos h1] at h
      cases h
      exact ⟨"No pod found when listing pods having label ", "",
        by simp [msgNoPodFound, string_append_empty]⟩
    · rw [if_neg h1] at h
      by_cases h2 : pods.any podIsPending
      · rw [if_pos h2] at h
        cases h
        exact ⟨"Error pods having label ", " are still pending to be scheduled",
          by simp [msgPodsPending]⟩
      · rw [if_neg h2] at h
        match hact : (pods.filter podIsActive).map (fun p => p.name) with
        | [name] =>
          simp only [hact] at h
          by_cases h3 : processed.contains name
          · rw [if_pos h3] at h
            cases h
            exact ⟨"Selected pod has already been processed. Waiting for the next pod to be created having label ",
              "", by simp [msgAlreadyProcessed, string_append_empty]⟩
          · rw [if_neg h3] at h
            cases h
        | [] =>
          simp only [hact] at h
          cases h
          exact ⟨"Cannot find active pod having label ", "",
            by simp [msgNoActivePod, string_append_empty]⟩
        | n1 :: n2 :: rest =>
          simp only [hact] at h
          cases h
          exact ⟨"Cannot find active pod having label ", "",
            by simp [msgNoActivePod, string_append_empty]⟩

/-- Helper for C4: `retry::retry` with `remaining` delays performs at most
`remaining + 1` attempts. -/
theorem retryFixed_attempts_le {α ε : Type} (op : Nat → OpResult α ε) :
    ∀ remaining attempt, (retryFixed op attempt remaining).2 ≤ remaining + 1 := by
  intro remaining
  induction remaining with
  | zero =>
    intro attempt
    cases h : op attempt <;> simp [retryFixed, h]
  | succ r ih =>
    intro attempt
    cases h : op attempt with
    | ok a => simp [retryFixed, h]
    | retry e =>
      have := ih (attempt + 1)
      simp only [retryFixed, h]
      omega

/-- Helper for C4: an error surfaced by `retry::retry` is the error of one of
the operation's attempts. -/
theorem retryFixed_error_from_attempt {α ε : Type} (op : Nat → OpResult α ε) :
    ∀ remaining attempt m, (retryFixed op attempt remaining).1 = Except.error m →
      ∃ i, op i = OpResult.retry m := by
  intro remaining
  induction remaining with
  | zero =>
    intro attempt m h
    cases hop : op attempt with
    | ok a => rw [retryFixed, hop] at h; cases h
    | retry e =>
      rw [retryFixed, hop] at h
      cases h
      exact ⟨attempt, hop⟩
  | succ r ih =>
    intro attempt m h
    cases hop : op attempt with
    | ok a => rw [retryFixed, hop] at h; cases h
    | retry e =>
      rw [retryFixed, hop] at h
      exact ih (attempt + 1) m h

/-- C4 (counterexample).  The claim bounds the selection at
`min(30, job_max_duration_in_seconds/10)` poll attempts, but that expression
counts the *delays* of the retry schedule, which allow one attempt each
*after* the initial one: with `job_max_duration = 300s` the budget expression
is `30`, yet a pod that only appears on the 31st poll is still returned —
the selection performs 31 attempts. -/
theorem claim_C4_counterexample :
    min 30 (300 / 10) = 30
    ∧ get_active_job_pod_by_selector
        (fun i => if i ≤ 30 then some []
                  else some [⟨"pod-a", some ⟨some "Running", some [⟨some ⟨true⟩⟩]⟩⟩])
        "job-name=x" [] 300
      = (Except.ok "pod-a", 31)
    ∧ 30 < 31 :=
  ⟨rfl, rfl, by norm_num⟩

/-- C4 (amended).  Active-pod selection polls at a fixed 10-second interval,
performing one initial attempt plus up to `min(30,
job_max_duration_in_seconds/10)` delayed retries — at most
`min(30, job_max_duration_in_seconds/10) + 1` poll attempts; with zero pods
listed on the first two polls and exactly one running, not-yet-processed pod
on the third poll it returns that pod's identifier after exactly 3 poll
attempts; exhausting all attempts returns a domain error carrying the label
selector. -/
theorem claim_C4_pod_selection (polls : Nat → Option (List Pod))
    (job_pod_selector : String) (processed : List String) (job_max_duration_secs : Nat) :
    podPollDelayMillis = 10000
    ∧ (get_active_job_pod_by_selector polls job_pod_selector processed job_max_duration_secs).2
        ≤ min 30 (job_max_duration_secs / 10) + 1
    ∧ (∀ m, (get_active_job_pod_by_selector polls job_pod_selector processed
          job_max_duration_secs).1 = Except.error m →
        ∃ a b, m = a ++ job_pod_selector ++ b)
    ∧ get_active_job_pod_by_selector
        (fun i => if i ≤ 2 then some []
                  else some [⟨"pod-a", some ⟨some "Running", some [⟨some ⟨true⟩⟩]⟩⟩])
        "job-name=x" [] 300
      = (Except.ok "pod-a", 3) := by
  refine ⟨rfl, ?_, ?_, rfl⟩
  · exact retryFixed_attempts_le _ _ 1
  · intro m h
    obtain ⟨i, hop⟩ := retryFixed_error_from_attempt _ _ 1 m h
    exact podSelectAttempt_retry_carries_selector (polls i) job_pod_selector processed m hop

/-- C4 (witness): with a duration below 10 seconds (budget `0` retries) and
an empty listing, the single attempt's exhaustion error carries the
selector. -/
theorem claim_C4_witness :
    (get_active_job_pod_by_selector (fun _ => some []) "job-name=x" [] 0).2
      ≤ min 30 (0 / 10) + 1
    ∧ ∃ a b, msgNoPodFound "job-name=x" = a ++ "job-name=x" ++ b :=
  ⟨(claim_C4_pod_selection (fun _ => some []) "job-name=x" [] 0).2.1,
   (claim_C4_pod_selection (fun _ => some []) "job-name=x" [] 0).2.2.1
     (msgNoPodFound "job-name=x") rfl⟩

/-- Helper for C5: in an association list with pairwise-distinct keys, a key
determines its value. -/
theorem nodup_keys_value_unique {α β : Type} (l : List (α × β))
    (h : (l.map Prod.fst).Nodup) {k : α} {v w : β}
    (hv : (k, v) ∈ l) (hw : (k, w) ∈ l) : v = w := by
  induction l with
  | nil => cases hv
  | cons p t ih =>
    rw [List.map_cons, List.nodup_cons] at h
    rcases List.mem_cons.mp hv with hv1 | hv1 <;>
      rcases List.mem_cons.mp hw with hw1 | hw1
    · exact congrArg Prod.snd (hv1.trans hw1.symm)
    · exfalso
      apply h.1
      have hk : k ∈ t.map Prod.fst := List.mem_map_of_mem Prod.fst hw1
      rw [← hv1]
      exact hk
    · exfalso
      apply h.1
      have hk : k ∈ t.map Prod.fst := List.mem_map_of_mem Prod.fst hv1
      rw [← hw1]
      exact hk
    · exact ih h.2 hv1 hw1

/-- Helper for C5: a value whose `as_object()` succeeds is that object. -/
theorem asObj_eq_some {v : Json} {inner : List (String × Json)}
    (h : Json.asObj v = some inner) : v = Json.obj inner := by
  cases v <;> simp [Json.asObj] at h
  rw [h]

/-- Helper for C5: the exact content of the parser's result on a top-level
object — an entry `(k, x)` is in the result iff some top-level entry is
`(k, v)` with `v` an object parsing to `x`. -/
theorem serialize_job_output_obj_spec (entries : List (String × Json)) :
    ∃ result, serialize_job_output (Json.obj entries) = some result
      ∧ ∀ k x, ((k, x) ∈ result ↔
          ∃ inner, (k, Json.obj inner) ∈ entries ∧ x = jobOutputVariableOfObject inner) := by
  refine ⟨_, rfl, ?_⟩
  intro k x
  rw [List.mem_filterMap]
  constructor
  · rintro ⟨⟨k', v'⟩, hmem, hf⟩
    match hobj : Json.asObj v' with
    | none => simp [hobj] at hf
    | some inner =>
      simp only [hobj] at hf
      have h2 := Option.some.inj hf
      have hk : k' = k := congrArg Prod.fst h2
      have hx : jobOutputVariableOfObject inner = x := congrArg Prod.snd h2
      subst hk
      refine ⟨inner, ?_, hx.symm⟩
      have hv' : v' = Json.obj inner := asObj_eq_some hobj
      rwa [hv'] at hmem
  · rintro ⟨inner, hmem, rfl⟩
    exact ⟨(k, Json.obj inner), hmem, by simp [Json.asObj]⟩

/-- C5 (counterexample).  The claim says the parse returns `Ok` for every
valid top-level JSON object, but the borrowed `&str` keys of
`HashMap<&str, Value>` deserialize only from escape-free key tokens: the
valid top-level object whose single key token is written with an escape
(the token `a\u0041`, denoting `aA`) returns `Err`, while the same denoted
object written with the escape-free token `aA` parses successfully. -/
theorem claim_C5_counterexample :
    serialize_job_output_from_str (JsonDocument.object
        [({ content := "aA", escaped := true }, Json.obj [("value", Json.num ⟨1, 0⟩)])])
      = none
    ∧ serialize_job_output_from_str (JsonDocument.object
        [({ content := "aA", escaped := false }, Json.obj [("value", Json.num ⟨1, 0⟩)])])
      = some [("aA", { value := "1", sensitive := false, description := "" })] :=
  ⟨rfl, rfl⟩

/-- C5 (amended).  The structured-output parse errors exactly when the
top-level payload is not a valid JSON object or some top-level key is
written with an escape sequence; on every valid top-level object whose keys
are all escape-free it returns `Ok`, whose content has an entry
`(k, parsed v)` exactly for the denoted top-level entries `(k, v)` whose
value `v` is itself an object — so keys with non-object values are omitted
(third part, under distinct keys) while all sibling entries are parsed
unaffected (the exact characterization of the second part). -/
theorem claim_C5_output_parser_boundary (doc : JsonDocument) :
    ((serialize_job_output_from_str doc).isSome ↔
      ∃ entries, doc = JsonDocument.object entries ∧ ∀ p ∈ entries, p.1.escaped = false)
    ∧ (∀ entries, doc = JsonDocument.object entries →
        (∀ p ∈ entries, p.1.escaped = false) →
        ∃ result, serialize_job_output_from_str doc = some result
          ∧ ∀ k x, ((k, x) ∈ result ↔
              ∃ inner, (k, Json.obj inner) ∈ (entries.map fun p => (p.1.content, p.2))
                ∧ x = jobOutputVariableOfObject inner))
    ∧ (∀ entries k v, doc = JsonDocument.object entries →
        (entries.map fun p => p.1.content).Nodup →
        (k, v) ∈ (entries.map fun p => (p.1.content, p.2)) → v.asObj = none →
        ∀ result x, serialize_job_output_from_str doc = some result → (k, x) ∉ result) := by
  refine ⟨?_, ?_, ?_⟩
  · cases doc with
    | notObject => simp [serialize_job_output_from_str]
    | object entries =>
      by_cases h : entries.any fun p => p.1.escaped
      · simp only [serialize_job_output_from_str, h, if_true, Option.isSome_none]
        obtain ⟨p, hp, hesc⟩ := List.any_eq_true.mp h
        simp only [Bool.false_eq_true, false_iff]
        rintro ⟨entries', heq, hall⟩
        cases heq
        exact absurd (hall p hp) (by simp [hesc])
      · rw [Bool.not_eq_true] at h
        simp only [serialize_job_output_from_str, h, Bool.false_eq_true, if_false,
          serialize_job_output, Option.isSome_some, true_iff]
        refine ⟨entries, rfl, ?_⟩
        intro p hp
        rcases hq : p.1.escaped with _ | _
        · rfl
        · exact absurd hq (List.any_eq_false.mp h p hp)
  · rintro entries rfl hall
    have h : (entries.any fun p => p.1.escaped) = false := by
      rw [List.any_eq_false]
      intro p hp
      simp [hall p hp]
    simp only [serialize_job_output_from_str, h, Bool.false_eq_true, if_false]
    exact serialize_job_output_obj_spec (entries.map fun p => (p.1.content, p.2))
  · rintro entries k v rfl hnd hv hobj result x hres hmem
    by_cases h : entries.any fun p => p.1.escaped
    · rw [serialize_job_output_from_str, if_pos h] at hres
      cases hres
    · rw [Bool.not_eq_true] at h
      rw [serialize_job_output_from_str, if_neg (by simp [h])] at hres
      obtain ⟨result', hok, hiff⟩ :=
        serialize_job_output_obj_spec (entries.map fun p => (p.1.content, p.2))
      rw [hok] at hres
      cases hres
      obtain ⟨inner, hin, _⟩ := (hiff k x).mp hmem
      have hnd' : ((entries.map fun p => (p.1.content, p.2)).map Prod.fst).Nodup := by
        simpa [List.map_map, Function.comp] using hnd
      have hveq : v = Json.obj inner :=
        nodup_keys_value_unique (entries.map fun p => (p.1.content, p.2)) hnd' hv hin
      rw [hveq] at hobj
      simp [Json.asObj] at hobj

/-- C5 (witness): on a concrete escape-free object with one malformed
(non-object) entry and one well-formed sibling, the parse succeeds, the
malformed key is absent and the sibling is parsed. -/
theorem claim_C5_witness :
    (serialize_job_output_from_str (JsonDocument.object
        [({ content := "a", escaped := false }, Json.null),
         ({ content := "b", escaped := false }, Json.obj [("value", Json.str "v")])])).isSome
    ∧ ("a", JobOutputVariable.default)
        ∉ [("b", jobOutputVariableOfObject [("value", Json.str "v")])]
    ∧ ("b", jobOutputVariableOfObject [("value", Json.str "v")])
        ∈ [("b", jobOutputVariableOfObject [("value", Json.str "v")])] := by
  refine ⟨?_, ?_, ?_⟩
  · exact (claim_C5_output_parser_boundary _).1.mpr ⟨_, rfl, by simp⟩
  · exact (claim_C5_output_parser_boundary _).2.2
      [({ content := "a", escaped := false }, Json.null),
       ({ content := "b", escaped := false }, Json.obj [("value", Json.str "v")])]
      "a" Json.null rfl (by simp) (by simp) rfl _ _ rfl
  · obtain ⟨result, hok, hiff⟩ := (claim_C5_output_parser_boundary
      (JsonDocument.object
        [({ content := "a", escaped := false }, Json.null),
         ({ content := "b", escaped := false }, Json.obj [("value", Json.str "v")])])).2.1
      [({ content := "a", escaped := false }, Json.null),
       ({ content := "b", escaped := false }, Json.obj [("value", Json.str "v")])]
      rfl (by simp)
    have hres : result = [("b", jobOutputVariableOfObject [("value", Json.str "v")])] :=
      Option.some.inj (hok.symm.trans rfl)
    rw [← hres]
    exact (hiff "b" _).mpr ⟨[("value", Json.str "v")], by simp, rfl⟩

/-- C6.  For every entry object: the parsed `value` is the string itself
when the entry's `"value"` field is a JSON string and the field's canonical
JSON text otherwise; `sensitive` is the `"sensitive"` boolean when present
and `false` otherwise; `description` is the `"description"` string when
present and empty otherwise. -/
theorem claim_C6_output_variable_fields (inner : List (String × Json)) :
    (∀ s, jlookup inner "value" = some (Json.str s) →
        (jobOutputVariableOfObject inner).value = s)
    ∧ (∀ v, jlookup inner "value" = some v → v.asStr = none →
        (jobOutputVariableOfObject inner).value = jsonRender v)
    ∧ (∀ b, jlookup inner "sensitive" = some (Json.bool b) →
        (jobOutputVariableOfObject inner).sensitive = b)
    ∧ ((∀ b, jlookup inner "sensitive" ≠ some (Json.bool b)) →
        (jobOutputVariableOfObject inner).sensitive = false)
    ∧ (∀ s, jlookup inner "description" = some (Json.str s) →
        (jobOutputVariableOfObject inner).description = s)
    ∧ ((∀ s, jlookup inner "description" ≠ some (Json.str s)) →
        (jobOutputVariableOfObject inner).description = "") := by
  refine ⟨?_, ?_, ?_, ?_, ?_, ?_⟩
  · intro s h
    simp [jobOutputVariableOfObject, h, Json.asStr]
  · intro v h hs
    simp [jobOutputVariableOfObject, h, hs]
  · intro b h
    simp [jobOutputVariableOfObject, h, Json.asBool]
  · intro h
    match hl : jlookup inner "sensitive" with
    | none => simp [jobOutputVariableOfObject, hl, Json.asBool]
    | some v =>
      match v with
      | Json.bool b => exact absurd hl (h b)
      | Json.null => simp [jobOutputVariableOfObject, hl, Json.asBool]
      | Json.num m => simp [jobOutputVariableOfObject, hl, Json.asBool]
      | Json.str s => simp [jobOutputVariableOfObject, hl, Json.asBool]
      | Json.arr a => simp [jobOutputVariableOfObject, hl, Json.asBool]
      | Json.obj o => simp [jobOutputVariableOfObject, hl, Json.asBool]
  · intro s h
    simp [jobOutputVariableOfObject, h, Json.asStr]
  · intro h
    match hl : jlookup inner "description" with
    | none => simp [jobOutputVariableOfObject, hl, Json.asStr]
    | some v =>
      match v with
      | Json.str s => exact absurd hl (h s)
      | Json.null => simp [jobOutputVariableOfObject, hl, Json.asStr]
      | Json.num m => simp [jobOutputVariableOfObject, hl, Json.asStr]
      | Json.bool b => simp [jobOutputVariableOfObject, hl, Json.asStr]
      | Json.arr a => simp [jobOutputVariableOfObject, hl, Json.asStr]
      | Json.obj o => simp [jobOutputVariableOfObject, hl, Json.asStr]

/-- C6 (witness): string values pass through; the numbers `123` and
`123.456` parse to their canonical JSON texts `"123"` and `"123.456"`;
`sensitive` keeps an explicit boolean and defaults to `false`;
`description` defaults to the empty string. -/
theorem claim_C6_witness :
    (jobOutputVariableOfObject [("value", Json.str "bar"), ("sensitive", Json.bool true)]).value
      = "bar"
    ∧ (jobOutputVariableOfObject [("value", Json.num ⟨123, 0⟩)]).value = "123"
    ∧ (jobOutputVariableOfObject [("value", Json.num ⟨123456, 3⟩)]).value = "123.456"
    ∧ (jobOutputVariableOfObject
        [("value", Json.str "bar"), ("sensitive", Json.bool true)]).sensitive = true
    ∧ (jobOutputVariableOfObject [("value", Json.num ⟨123, 0⟩)]).sensitive = false
    ∧ (jobOutputVariableOfObject [("value", Json.num ⟨123, 0⟩)]).description = "" := by
  refine ⟨?_, ?_, ?_, ?_, ?_, ?_⟩
  · exact (claim_C6_output_variable_fields _).1 "bar" rfl
  · exact ((claim_C6_output_variable_fields [("value", Json.num ⟨123, 0⟩)]).2.1
      (Json.num ⟨123, 0⟩) rfl rfl).trans rfl
  · exact ((claim_C6_output_variable_fields [("value", Json.num ⟨123456, 3⟩)]).2.1
      (Json.num ⟨123456, 3⟩) rfl rfl).trans rfl
  · exact (claim_C6_output_variable_fields _).2.2.1 true rfl
  · exact (claim_C6_output_variable_fields _).2.2.2.1 (fun b h => Option.noConfusion h)
  · exact (claim_C6_output_variable_fields _).2.2.2.2.2 (fun s h => Option.noConfusion h)

/-- C7.  In the force-triggered cron path, when the bounded wait does not
itself error: a timeout is treated as `Running` — logged informationally and
returning success (when the uninstall succeeds); a `Success` classification
returns success; `Failure` and `NotRunning` classifications return errors;
and the cron schedule resource's uninstall is attempted exactly when the
schedule was not already installed before the run. -/
theorem claim_C7_force_trigger_cron (installed : Bool) (wait : CronWaitResult)
    (uninstallResult : Except String Unit) (hwait : wait ≠ CronWaitResult.waitError) :
    (wait = CronWaitResult.timeout →
        (run_job_force_trigger_tail installed wait uninstallResult).loggedStillRunning = true
        ∧ (uninstallResult = Except.ok () →
            (run_job_force_trigger_tail installed wait uninstallResult).result = Except.ok ()))
    ∧ (∀ j, wait = CronWaitResult.completed j → job_status j = JobStatus.Success →
        uninstallResult = Except.ok () →
        (run_job_force_trigger_tail installed wait uninstallResult).result = Except.ok ())
    ∧ (∀ j r m, wait = CronWaitResult.completed j → job_status j = JobStatus.Failure r m →
        ∃ msg, (run_job_force_trigger_tail installed wait uninstallResult).result
          = Except.error msg)
    ∧ (∀ j, wait = CronWaitResult.completed j → job_status j = JobStatus.NotRunning →
        ∃ msg, (run_job_force_trigger_tail installed wait uninstallResult).result
          = Except.error msg)
    ∧ (run_job_force_trigger_tail installed wait uninstallResult).uninstallAttempted
        = !installed := by
  refine ⟨?_, ?_, ?_, ?_, ?_⟩
  · rintro rfl
    refine ⟨?_, ?_⟩
    · cases installed <;> cases uninstallResult <;>
        simp [run_job_force_trigger_tail]
    · rintro rfl
      cases installed <;> simp [run_job_force_trigger_tail]
  · rintro j rfl hst rfl
    cases installed <;> simp [run_job_force_trigger_tail, hst]
  · rintro j r m rfl hst
    cases installed <;> cases uninstallResult <;>
      simp [run_job_force_trigger_tail, hst]
  · rintro j rfl hst
    cases installed <;> cases uninstallResult <;>
      simp [run_job_force_trigger_tail, hst]
  · cases wait with
    | waitError => exact absurd rfl hwait
    | timeout =>
      cases installed <;> cases uninstallResult <;> simp [run_job_force_trigger_tail]
    | completed j =>
      cases installed <;> cases uninstallResult <;>
        cases hst : job_status j <;> simp [run_job_force_trigger_tail, hst]

/-- C7 (witness): force-trigger of a not-previously-installed schedule whose
wait times out — informational log, success result, uninstall attempted. -/
theorem claim_C7_witness :
    (run_job_force_trigger_tail false CronWaitResult.timeout (Except.ok ())).result
      = Except.ok ()
    ∧ (run_job_force_trigger_tail false CronWaitResult.timeout (Except.ok ())).loggedStillRunning
      = true
    ∧ (run_job_force_trigger_tail false CronWaitResult.timeout (Except.ok ())).uninstallAttempted
      = !false := by
  have h := claim_C7_force_trigger_cron false CronWaitResult.timeout (Except.ok ())
    (by decide)
  exact ⟨(h.1 rfl).2 rfl, (h.1 rfl).1, h.2.2.2.2⟩

/-- C8.  The `is_job_terminated` predicate holds exactly when the job-status
classifier yields `Success` or `Failure` on the same snapshot. -/
theorem claim_C8_terminated_iff_terminal (job : Option K8sJob) :
    is_job_terminated job = true ↔
      (job_status job = JobStatus.Success
        ∨ ∃ r m, job_status job = JobStatus.Failure r m) := by
  unfold is_job_terminated
  cases h : job_status job <;> simp [h]

/-- C9.  An entry object with no `"value"` field parses to a
`JobOutputVariable` whose value is the four-character string `"null"` (the
canonical JSON text of the `null` default), not the empty string. -/
theorem claim_C9_missing_value_renders_null (inner : List (String × Json))
    (h : jlookup inner "value" = none) :
    (jobOutputVariableOfObject inner).value = "null"
    ∧ (jobOutputVariableOfObject inner).value ≠ ""
    ∧ (jobOutputVariableOfObject inner).value.length = 4 := by
  have hv : (jobOutputVariableOfObject inner).value = jsonRender Json.null := by
    simp [jobOutputVariableOfObject, h, Json.asStr]
  refine ⟨hv.trans rfl, ?_, ?_⟩
  · rw [hv]
    decide
  · rw [hv]
    decide

/-- C9 (witness): a concrete entry object carrying only a description. -/
theorem claim_C9_witness :
    jlookup [("description", Json.str "d")] "value" = none
    ∧ (jobOutputVariableOfObject [("description", Json.str "d")]).value = "null" :=
  ⟨rfl, (claim_C9_missing_value_renders_null [("description", Json.str "d")] rfl).1⟩

/-- C10.  Upper-casing the parsed output keys can merge distinct entries:
the valid input `{"key": {"value": "v1"}, "KEY": {"value": "v2"}}` parses to
two distinct variables, yet the upper-cased mapping collected from them
holds a single entry for `"KEY"`, retaining only one of the two parsed
values. -/
theorem claim_C10_uppercase_key_merge :
    serialize_job_output (Json.obj
        [("key", Json.obj [("value", Json.str "v1")]),
         ("KEY", Json.obj [("value", Json.str "v2")])])
      = some [("key", { value := "v1", sensitive := false, description := "" }),
              ("KEY", { value := "v2", sensitive := false, description := "" })]
    ∧ uppercaseKeys
        [("key", { value := "v1", sensitive := false, description := "" }),
         ("KEY", { value := "v2", sensitive := false, description := "" })]
      = [("KEY", { value := "v2", sensitive := false, description := "" })]
    ∧ ({ value := "v1", sensitive := false, description := "" } : JobOutputVariable)
      ≠ { value := "v2", sensitive := false, description := "" } := by
  exact ⟨rfl, rfl, by decide⟩
